import Mathlib

/-!
Verification of the infrahub-sdk-python client against its specification.

This file gives a shallow embedding, in Lean 4, of the behaviourally relevant
parts of the SDK:

* the paginated fetch loop of `InfrahubClient.filters` (src/infrahub_sdk/client.py),
* the filter-merging and result post-processing of `InfrahubClient.get`,
* the HTTP transport pipeline of `execute_graphql` with its relogin wrapper
  `handle_relogin` and its retry loop,
* the declarative object loader `InfrahubObjectFileData.create_node`
  (src/infrahub_sdk/spec/object.py),
* the diff translation `diff_tree_node_to_node_diff` (src/infrahub_sdk/diff.py),
* the menu enrichment hook `InfrahubMenuFileData.enrich_node`
  (src/infrahub_sdk/spec/menu.py).

Machine integers of the source are modelled as `Nat`/`Int` (Python integers are
unbounded, so no wrap-around is involved); Python exceptions are modelled as
explicit error values; network effects are modelled by explicit streams of
transport results and by traces of the calls issued.
-/

namespace InfrahubSpec

/-! ## Pagination model (`InfrahubClient.filters`, client.py lines 686-736)

The server is modelled as holding a fixed list `items` in server order; a page
query with offset `off` and limit `lim` returns the slice
`(items.drop off).take lim` together with the reported total `items.length`,
exactly the contract of the GraphQL `count` + `edges` envelope.  Each edge is
hydrated into one node object; hydration is one-for-one and order-preserving
(`_process_nodes_and_relationships` appends one node per edge), so nodes are
identified with the list elements themselves. -/

def serverPage {α : Type} (items : List α) (off lim : Nat) : List α :=
  (items.drop off).take lim

/-- Python truthiness of the `offset or page_offset` expression in
`generate_query_data(offset=offset or page_offset, ...)`: a `None` or `0`
caller offset falls back to the computed page offset. -/
def pyOrNat (v : Option Nat) (fallback : Nat) : Nat :=
  match v with
  | some n => if n = 0 then fallback else n
  | none => fallback

/-- The `while has_remaining_items` loop of `InfrahubClient.filters`
(client.py lines 686-725), with an explicit fuel bound standing for the
unbounded Python loop.  Returns `some (nodes, fetches)`: the concatenation of
all hydrated pages in order, and the number of page fetches performed; `none`
when the fuel runs out before the loop condition stops it.

Each iteration computes `page_offset = (page_number - 1) * pagination_size`,
fetches one page with `offset or page_offset` / `limit or pagination_size`,
then computes `remaining_items = count - (page_offset + pagination_size)` and
stops when `remaining_items < 0 or offset is not None or limit is not None`. -/
def filtersLoop {α : Type} (items : List α) (paginationSize : Nat)
    (offset limit : Option Nat) : Nat → Nat → Option (List α × Nat)
  | 0, _ => none
  | fuel + 1, pageNumber =>
    let pageOffset := (pageNumber - 1) * paginationSize
    let off := pyOrNat offset pageOffset
    let lim := pyOrNat limit paginationSize
    let fetched := serverPage items off lim
    let remainingItems : Int := (items.length : Int) - ((pageOffset : Int) + (paginationSize : Int))
    if remainingItems < 0 ∨ offset.isSome ∨ limit.isSome then
      some (fetched, 1)
    else
      match filtersLoop items paginationSize offset limit fuel (pageNumber + 1) with
      | none => none
      | some (rest, n) => some (fetched ++ rest, n + 1)

/-- `InfrahubClient.filters`: run the page loop starting at page 1.  The fuel
`items.length + 2` dominates the number of iterations whenever
`paginationSize ≥ 1`. -/
def filtersModel {α : Type} (items : List α) (paginationSize : Nat)
    (offset limit : Option Nat) : Option (List α × Nat) :=
  filtersLoop items paginationSize offset limit (items.length + 2) 1

/-- Loop invariant for the default-pagination case (`offset = limit = none`):
starting at page `k + 1` with `k + d = N / P`, the loop returns the items from
offset `k * P` on and performs `d + 1` further fetches. -/
lemma filtersLoop_default_inv {α : Type} (items : List α) (P : Nat) (hP : 0 < P) :
    ∀ d k fuel, k + d = items.length / P → d < fuel →
      filtersLoop items P none none fuel (k + 1) =
        some (items.drop (k * P), d + 1) := by
  intro d
  induction d with
  | zero =>
    intro k fuel hk hfuel
    obtain ⟨f, rfl⟩ : ∃ f, fuel = f + 1 := ⟨fuel - 1, by omega⟩
    have hk0 : k = items.length / P := by omega
    have harith : items.length < k * P + P := by
      have hlt : items.length < (items.length / P + 1) * P :=
        (Nat.div_lt_iff_lt_mul hP).mp (Nat.lt_succ_self _)
      rw [Nat.succ_mul] at hlt
      rw [hk0]
      exact hlt
    have hlen : (items.drop (k * P)).length ≤ P := by
      rw [List.length_drop]
      omega
    simp only [filtersLoop, Nat.add_sub_cancel, pyOrNat, serverPage,
      Option.isSome_none, Bool.false_eq_true, or_false]
    rw [if_pos (by omega)]
    rw [List.take_of_length_le hlen]
  | succ d ih =>
    intro k fuel hk hfuel
    obtain ⟨f, rfl⟩ : ∃ f, fuel = f + 1 := ⟨fuel - 1, by omega⟩
    have harith : k * P + P ≤ items.length := by
      have h2 : k + 1 ≤ items.length / P := by omega
      have h1 : (k + 1) * P ≤ items.length :=
        calc (k + 1) * P ≤ (items.length / P) * P := Nat.mul_le_mul_right _ h2
          _ ≤ items.length := Nat.div_mul_le_self _ _
      rw [Nat.succ_mul] at h1
      exact h1
    have hrec := ih (k + 1) f (by omega) (by omega)
    simp only [filtersLoop, Nat.add_sub_cancel, pyOrNat, serverPage,
      Option.isSome_none, Bool.false_eq_true, or_false]
    rw [if_neg (by omega)]
    rw [hrec]
    have hglue : (items.drop (k * P)).take P ++ items.drop ((k + 1) * P) =
        items.drop (k * P) := by
      have h4 : (k + 1) * P = k * P + P := by ring
      rw [h4, ← List.drop_drop, List.take_append_drop]
    show some (List.take P (List.drop (k * P) items) ++ List.drop ((k + 1) * P) items,
        d + 1 + 1) = some (List.drop (k * P) items, d + 1 + 1)
    rw [hglue]

/-- C1 (amended): with default (unsupplied) offset and limit, `filters()`
returns all `N` server items, in server order, and performs exactly
`N / P + 1` page fetches (floor division): one fetch per full or partial page
plus, when `N` is a multiple of `P`, one extra empty page, because the loop
stops only when `reported_count - (page_offset + P) < 0`. -/
theorem filters_default_pagination {α : Type} (items : List α) (P : Nat) (hP : 0 < P) :
    filtersModel items P none none = some (items, items.length / P + 1) := by
  have h := filtersLoop_default_inv items P hP (items.length / P) 0 (items.length + 2)
    (by omega)
    (by have := Nat.div_le_self items.length P; omega)
  simpa using h

/-- Witness for `filters_default_pagination` at a concrete input:
3 items with pages of size 2 give both pages back in order in 2 fetches. -/
theorem filters_default_pagination_witness :
    filtersModel [10, 20, 30] 2 none none = some ([10, 20, 30], 2) :=
  filters_default_pagination [10, 20, 30] 2 (by decide)

/-- C1 counterexample: with pagination size `P = 1` and server total `N = 1`,
the loop performs 2 page fetches, while `ceil(N/P) = (N + P - 1) / P = 1`;
so the claimed fetch count `ceil(N/P)` is wrong whenever `N` is a positive
multiple of `P` (the spec itself flags this boundary as an open question). -/
theorem filters_ceil_fetch_count_false :
    filtersModel [0] 1 none none = some ([0], 2) ∧ (1 + 1 - 1) / 1 = 1 ∧ (2 : Nat) ≠ 1 := by
  decide

/-- C5: if the caller explicitly supplies an offset or a limit (or both),
exactly one page fetch is performed, whatever total the server reports:
the stop condition `remaining < 0 or offset is not None or limit is not None`
is true on the first iteration. -/
theorem filters_explicit_window_single_fetch {α : Type} (items : List α) (P : Nat)
    (offset limit : Option Nat) (h : offset.isSome ∨ limit.isSome) :
    filtersModel items P offset limit =
      some (serverPage items (pyOrNat offset 0) (pyOrNat limit P), 1) := by
  show filtersLoop items P offset limit (items.length + 1 + 1) 1 = _
  simp only [filtersLoop]
  rw [if_pos (Or.inr h)]
  norm_num

/-- Witness for `filters_explicit_window_single_fetch`: an explicit offset of 1
on a 5-item server fetches the single page `[2, 3]` (limit defaulted to the
pagination size 2) in one round trip. -/
theorem filters_explicit_window_witness :
    filtersModel [1, 2, 3, 4, 5] 2 (some 1) none = some ([2, 3], 1) :=
  filters_explicit_window_single_fetch [1, 2, 3, 4, 5] 2 (some 1) none (Or.inl rfl)

/-! ## `InfrahubClient.get` (client.py lines 429-485)

`get()` merges filters from the `id` argument, the `hfid` argument and the
caller keyword filters, raises a `ValueError` locally when the merged set is
empty or when `hfid` is used against a schema without a human-friendly id,
then runs `filters()` once and post-processes the result list. -/

/-- The schema information `get()` consults: whether the resolved schema is a
`NodeSchema` (as opposed to a generic/profile schema), its `default_filter`
and whether `human_friendly_id` is a non-empty list.  The schema classes live
in `schema.py`, which only exposes plain attribute data here. -/
structure GetSchema where
  kind : String
  isNodeSchema : Bool
  defaultFilter : Option String
  humanFriendlyId : Bool
  deriving DecidableEq, Repr

/-- A filter value: scalar string or list of strings. -/
inductive FValue where
  | s (v : String)
  | ls (v : List String)
  deriving DecidableEq, Repr

/-- Python truthiness of `schema.default_filter` (None and the empty string
are falsy). -/
def strOptTruthy (v : Option String) : Bool :=
  match v with
  | some s => s ≠ ""
  | none => false

/-- Python truthiness of the `id` argument (`if id:`). -/
def idTruthy (id : Option String) : Bool :=
  match id with
  | some s => s ≠ ""
  | none => false

/-- Python truthiness of the `hfid` argument (`if hfid:`, an empty list is
falsy). -/
def hfidTruthy (hfid : Option (List String)) : Bool :=
  match hfid with
  | some l => l ≠ []
  | none => false

/-- First-match association lookup, mirroring a Python dict whose keys are
unique. -/
def lookupKey {β : Type} (data : List (String × β)) (k : String) : Option β :=
  (data.find? (fun p => p.1 == k)).map (fun p => p.2)

/-- Membership test `k in d.keys()`. -/
def hasKey {β : Type} (data : List (String × β)) (k : String) : Bool :=
  (lookupKey data k).isSome

/-- Python `d[k] = v`: replace in place when the key exists, else append. -/
def setKey {β : Type} (data : List (String × β)) (k : String) (v : β) :
    List (String × β) :=
  if hasKey data k then data.map (fun p => if p.1 == k then (k, v) else p)
  else data ++ [(k, v)]

/-- Python `d.update(other)`: set every key of `other` in order. -/
def dictUpdate {β : Type} (data upd : List (String × β)) : List (String × β) :=
  upd.foldl (fun acc p => setKey acc p.1 p.2) data

/-- The distinct error exits of `get()`. -/
inductive GetErr where
  | emptyFilters
  | hfidNotSupported
  | notFound
  | moreThanOne
  deriving DecidableEq, Repr

/-- Filter merging of `get()` (client.py lines 448-463).  `isValidUuid`
abstracts `utils.is_valid_uuid`, whose module is not part of the sources under
study; every theorem below holds for an arbitrary such predicate. -/
def getBuildFilters (isValidUuid : String → Bool) (schema : GetSchema)
    (id : Option String) (hfid : Option (List String))
    (kwargs : List (String × FValue)) : Except GetErr (List (String × FValue)) :=
  let f0 : List (String × FValue) := []
  let f1 :=
    match id with
    | some i =>
      if i ≠ "" then
        if ¬ isValidUuid i ∧ schema.isNodeSchema ∧ strOptTruthy schema.defaultFilter then
          setKey f0 (schema.defaultFilter.getD "") (FValue.s i)
        else
          setKey f0 "ids" (FValue.ls [i])
      else f0
    | none => f0
  match hfid with
  | some l =>
    if l ≠ [] then
      if schema.isNodeSchema ∧ schema.humanFriendlyId then
        let f2 := setKey f1 "hfid" (FValue.ls l)
        let f3 := if kwargs ≠ [] then dictUpdate f2 kwargs else f2
        if f3.length = 0 then Except.error GetErr.emptyFilters else Except.ok f3
      else Except.error GetErr.hfidNotSupported
    else
      let f3 := if kwargs ≠ [] then dictUpdate f1 kwargs else f1
      if f3.length = 0 then Except.error GetErr.emptyFilters else Except.ok f3
  | none =>
    let f3 := if kwargs ≠ [] then dictUpdate f1 kwargs else f1
    if f3.length = 0 then Except.error GetErr.emptyFilters else Except.ok f3

/-- Result post-processing and query accounting of `get()`: on a filter-build
error nothing is sent over the wire (`0` queries); otherwise `filters()` is
invoked exactly once (`1` query, itself possibly paginated) and the result
list is inspected (client.py lines 465-485). -/
def getModel {α : Type} (isValidUuid : String → Bool) (schema : GetSchema)
    (id : Option String) (hfid : Option (List String))
    (kwargs : List (String × FValue)) (raiseWhenMissing : Bool)
    (server : List (String × FValue) → List α) :
    Except GetErr (Option α) × Nat :=
  match getBuildFilters isValidUuid schema id hfid kwargs with
  | Except.error e => (Except.error e, 0)
  | Except.ok fs =>
    let results := server fs
    if results.length = 0 ∧ raiseWhenMissing then (Except.error GetErr.notFound, 1)
    else if results.length = 0 ∧ ¬ raiseWhenMissing then (Except.ok none, 1)
    else if results.length > 1 then (Except.error GetErr.moreThanOne, 1)
    else (Except.ok results.head?, 1)

/-- C4: for a `get()` call whose merged filter set was accepted (it is then
necessarily non-empty): zero matches raise the not-found error when
`raise_when_missing` is true and return `None` when it is false; two or more
matches always raise `IndexError`, whatever the flag. -/
theorem get_result_semantics {α : Type} (isValidUuid : String → Bool)
    (schema : GetSchema) (id : Option String) (hfid : Option (List String))
    (kwargs : List (String × FValue)) (flag : Bool)
    (server : List (String × FValue) → List α) (fs : List (String × FValue))
    (hfs : getBuildFilters isValidUuid schema id hfid kwargs = Except.ok fs) :
    (server fs = [] → flag = true →
      getModel isValidUuid schema id hfid kwargs flag server = (Except.error GetErr.notFound, 1)) ∧
    (server fs = [] → flag = false →
      getModel isValidUuid schema id hfid kwargs flag server = (Except.ok none, 1)) ∧
    (2 ≤ (server fs).length →
      getModel isValidUuid schema id hfid kwargs flag server = (Except.error GetErr.moreThanOne, 1)) := by
  refine ⟨?_, ?_, ?_⟩
  · intro hempty hflag
    simp [getModel, hfs, hempty, hflag]
  · intro hempty hflag
    simp [getModel, hfs, hempty, hflag]
  · intro hlen
    have h0 : ¬ ((server fs).length = 0) := by omega
    have h1 : (server fs).length > 1 := by omega
    simp [getModel, hfs, h0, h1]

/-- Witness for `get_result_semantics`: a filter on `name__value` that the
server answers with two nodes makes `get()` raise the more-than-one error. -/
theorem get_result_semantics_witness :
    getModel (fun _ => false) ⟨"TestKind", true, none, false⟩ none none
      [("name__value", FValue.s "x")] true (fun _ => [1, 2]) =
      (Except.error GetErr.moreThanOne, 1) :=
  (get_result_semantics (fun _ => false) ⟨"TestKind", true, none, false⟩ none none
    [("name__value", FValue.s "x")] true (fun _ => [1, 2])
    [("name__value", FValue.s "x")] rfl).2.2 (by decide)

/-- C8: when the `id` and `hfid` arguments are absent (or Python-falsy) and no
keyword filters are given, the merged filter set is empty and `get()` raises
the local `ValueError` with zero queries sent (and hence zero retries). -/
theorem get_empty_filterset_local_error {α : Type} (isValidUuid : String → Bool)
    (schema : GetSchema) (id : Option String) (hfid : Option (List String))
    (flag : Bool) (server : List (String × FValue) → List α)
    (hid : idTruthy id = false) (hhfid : hfidTruthy hfid = false) :
    getModel isValidUuid schema id hfid [] flag server = (Except.error GetErr.emptyFilters, 0) := by
  have hfilters : getBuildFilters isValidUuid schema id hfid [] = Except.error GetErr.emptyFilters := by
    cases id with
    | none =>
      cases hfid with
      | none => rfl
      | some l =>
        have hl : l = [] := by simpa [hfidTruthy] using hhfid
        subst hl
        rfl
    | some i =>
      have hi : i = "" := by simpa [idTruthy] using hid
      subst hi
      cases hfid with
      | none => rfl
      | some l =>
        have hl : l = [] := by simpa [hfidTruthy] using hhfid
        subst hl
        rfl
  simp [getModel, hfilters]

/-- Witness for `get_empty_filterset_local_error`: no id, no hfid, no keyword
filters. -/
theorem get_empty_filterset_witness :
    getModel (α := Nat) (fun _ => true) ⟨"TestKind", true, none, false⟩ none none
      [] true (fun _ => []) = (Except.error GetErr.emptyFilters, 0) :=
  get_empty_filterset_local_error (fun _ => true) ⟨"TestKind", true, none, false⟩
    none none true (fun _ => []) rfl rfl

/-- C9: supplying a (truthy) `hfid` for a schema that is not a node schema or
has no human-friendly id raises the `ValueError` locally, with no query built
or executed. -/
theorem get_hfid_unsupported_local_error {α : Type} (isValidUuid : String → Bool)
    (schema : GetSchema) (id : Option String) (hfid : Option (List String))
    (kwargs : List (String × FValue)) (flag : Bool)
    (server : List (String × FValue) → List α)
    (hhfid : hfidTruthy hfid = true)
    (hschema : ¬ (schema.isNodeSchema = true ∧ schema.humanFriendlyId = true)) :
    getModel isValidUuid schema id hfid kwargs flag server =
      (Except.error GetErr.hfidNotSupported, 0) := by
  have hfilters : getBuildFilters isValidUuid schema id hfid kwargs =
      Except.error GetErr.hfidNotSupported := by
    cases hfid with
    | none => simp [hfidTruthy] at hhfid
    | some l =>
      have hl : l ≠ [] := by simpa [hfidTruthy] using hhfid
      simp only [getBuildFilters]
      rw [if_pos hl, if_neg hschema]
  simp [getModel, hfilters]

/-- Witness for `get_hfid_unsupported_local_error`: an hfid lookup against a
generic (non-node) schema fails locally. -/
theorem get_hfid_unsupported_witness :
    getModel (α := Nat) (fun _ => true) ⟨"GenericKind", false, none, false⟩ none
      (some ["x"]) [] true (fun _ => []) = (Except.error GetErr.hfidNotSupported, 0) :=
  get_hfid_unsupported_local_error (fun _ => true) ⟨"GenericKind", false, none, false⟩
    none (some ["x"]) [] true (fun _ => []) rfl (by decide)

/-! ## HTTP transport (`execute_graphql`, `handle_relogin`, `login`;
client.py lines 79-104, 742-817, 821-839, 859-899, 901-951)

The transport is modelled per logical GraphQL request.  `server` maps the
index of each POST to the GraphQL endpoint (0-based, in issue order) to its
transport-level result; the auth endpoints are summarised by the status codes
they would return (`refreshStatus`, `loginStatus` in the client
configuration).  The model records the trace of the run: the number of
GraphQL POSTs issued, the retry delays slept, and the auth exchanges
performed. -/

/-- An HTTP response body as `execute_graphql` sees it: the status code and
the optional `errors` list of the decoded JSON (with only the `message`
field of each error retained, which is all the code reads). -/
structure HResponse where
  status : Nat
  gqlErrors : Option (List String)
  deriving DecidableEq, Repr

/-- Transport-level result of one POST to the GraphQL endpoint:
a response, an `httpx.NetworkError` (unreachable), or an
`httpx.ReadTimeout`. -/
inductive TResult where
  | ok (r : HResponse)
  | unreachable
  | readTimeout
  deriving DecidableEq, Repr

/-- One auth-endpoint exchange: `POST /api/auth/refresh` or
`POST /api/auth/login`. -/
inductive AuthCall where
  | refreshCall
  | fullLogin
  deriving DecidableEq, Repr

/-- Client state relevant to the transport: whether password authentication
is configured, which tokens are currently held, what the auth endpoints
would answer, and the retry configuration. -/
structure ClientCfg where
  passwordAuth : Bool
  hasAccessToken : Bool
  hasRefreshToken : Bool
  refreshStatus : Nat
  loginStatus : Nat
  retryOnFailure : Bool
  retryDelay : Nat
  deriving DecidableEq, Repr

/-- Result of `login()`: updated client state plus auth calls performed, an
`AuthenticationError` raised inside `login`, or an `httpx.HTTPStatusError`
propagating from `raise_for_status` on the full login exchange. -/
inductive LoginOutcome where
  | ok (cfg : ClientCfg) (calls : List AuthCall)
  | authFailure
  | httpFailure
  deriving DecidableEq, Repr

/-- The username/password exchange at the end of `login`
(client.py lines 938-951): on success both tokens are (re)set. -/
def loginFullExchange (cfg : ClientCfg) (pre : List AuthCall) : LoginOutcome :=
  if cfg.loginStatus < 400 then
    LoginOutcome.ok { cfg with hasAccessToken := true, hasRefreshToken := true }
      (pre ++ [AuthCall.fullLogin])
  else LoginOutcome.httpFailure

/-- `login(refresh)` (client.py lines 918-951): no-op without password
authentication; no-op with an access token unless `refresh` is set; with a
refresh token and `refresh`, try `refresh_login` first, falling back to the
full exchange only on a 401 from the refresh endpoint and raising
`AuthenticationError` on any other refresh failure. -/
def loginModel (cfg : ClientCfg) (refresh : Bool) : LoginOutcome :=
  if ¬ cfg.passwordAuth then LoginOutcome.ok cfg []
  else if cfg.hasAccessToken ∧ ¬ refresh then LoginOutcome.ok cfg []
  else if cfg.hasRefreshToken ∧ refresh then
    if cfg.refreshStatus < 400 then
      LoginOutcome.ok { cfg with hasAccessToken := true } [AuthCall.refreshCall]
    else if cfg.refreshStatus = 401 then loginFullExchange cfg [AuthCall.refreshCall]
    else LoginOutcome.authFailure
  else loginFullExchange cfg []

/-- Result of one invocation of the decorated `_post` body — `await
self.login()` followed by one request — or of the whole relogin-wrapped
`_post`; carries the next send index and the auth calls made. -/
inductive InnerResult where
  | resp (r : HResponse) (cfg : ClientCfg) (sent : Nat) (auths : List AuthCall)
  | unreachable (cfg : ClientCfg) (sent : Nat) (auths : List AuthCall)
  | timeout (cfg : ClientCfg) (sent : Nat) (auths : List AuthCall)
  | loginAuthFailure (cfg : ClientCfg) (sent : Nat) (auths : List AuthCall)
  | loginHttpFailure (cfg : ClientCfg) (sent : Nat) (auths : List AuthCall)
  deriving DecidableEq, Repr

/-- One call of the inner `_post` body (client.py lines 821-839 plus
`_default_request_method` lines 866-899). -/
def innerPost (server : Nat → TResult) (cfg : ClientCfg) (sent : Nat) : InnerResult :=
  match loginModel cfg false with
  | LoginOutcome.authFailure => InnerResult.loginAuthFailure cfg sent []
  | LoginOutcome.httpFailure => InnerResult.loginHttpFailure cfg sent []
  | LoginOutcome.ok cfg1 auths =>
    match server sent with
    | TResult.unreachable => InnerResult.unreachable cfg1 (sent + 1) auths
    | TResult.readTimeout => InnerResult.timeout cfg1 (sent + 1) auths
    | TResult.ok r => InnerResult.resp r cfg1 (sent + 1) auths

/-- The `handle_relogin` wrapper (client.py lines 79-90): if the response is
a 401 whose error messages include \x22Expired Signature\x22, call
`login(refresh=True)` and replay the wrapped call exactly once, returning
whatever the replay yields; all other responses and all exceptions pass
through untouched. -/
def postWithRelogin (server : Nat → TResult) (cfg : ClientCfg) (sent : Nat) : InnerResult :=
  match innerPost server cfg sent with
  | InnerResult.resp r cfg1 sent1 auths =>
    if r.status = 401 ∧ (r.gqlErrors.getD []).contains "Expired Signature" then
      match loginModel cfg1 true with
      | LoginOutcome.authFailure => InnerResult.loginAuthFailure cfg1 sent1 auths
      | LoginOutcome.httpFailure => InnerResult.loginHttpFailure cfg1 sent1 auths
      | LoginOutcome.ok cfg2 auths2 =>
        match innerPost server cfg2 sent1 with
        | InnerResult.resp r2 cfg3 sent2 auths3 =>
          InnerResult.resp r2 cfg3 sent2 (auths ++ auths2 ++ auths3)
        | InnerResult.unreachable cfg3 sent2 auths3 =>
          InnerResult.unreachable cfg3 sent2 (auths ++ auths2 ++ auths3)
        | InnerResult.timeout cfg3 sent2 auths3 =>
          InnerResult.timeout cfg3 sent2 (auths ++ auths2 ++ auths3)
        | InnerResult.loginAuthFailure cfg3 sent2 auths3 =>
          InnerResult.loginAuthFailure cfg3 sent2 (auths ++ auths2 ++ auths3)
        | InnerResult.loginHttpFailure cfg3 sent2 auths3 =>
          InnerResult.loginHttpFailure cfg3 sent2 (auths ++ auths2 ++ auths3)
    else InnerResult.resp r cfg1 sent1 auths
  | other => other

/-- How `execute_graphql` terminates. -/
inductive ExecOutcome where
  | ok (r : HResponse)
  | authFailed (messages : List String)
  | notReachable
  | notResponsive
  | gqlFailed (messages : List String)
  | loginFailed
  | fuelOut
  deriving DecidableEq, Repr

/-- Trace of one `execute_graphql` call: its outcome, the final client state,
the number of GraphQL POSTs issued, the retry delays slept (in order), and
the auth exchanges performed. -/
structure ExecTrace where
  outcome : ExecOutcome
  cfg : ClientCfg
  sent : Nat
  delays : List Nat
  auths : List AuthCall
  deriving DecidableEq, Repr

/-- Code after the retry loop of `execute_graphql` (client.py lines 809-817):
decode, raise `GraphQLError` if the body has an `errors` key, else return the
data. -/
def execAfterLoop (r : HResponse) (cfg : ClientCfg) (sent : Nat) (delays : List Nat)
    (auths : List AuthCall) : ExecTrace :=
  match r.gqlErrors with
  | some msgs => ⟨ExecOutcome.gqlFailed msgs, cfg, sent, delays, auths⟩
  | none => ⟨ExecOutcome.ok r, cfg, sent, delays, auths⟩

/-- The `while retry` loop of `execute_graphql` (client.py lines 782-807),
with fuel standing for the unbounded Python loop.  A
`ServerNotReachableError` sleeps `retry_delay` and retries when
`retry_on_failure` is set, else propagates; a `ServerNotResponsiveError`
always propagates; an `httpx.HTTPStatusError` on 401/403 raises
`AuthenticationError` with the server-reported messages; any other HTTP
status error is swallowed by the `except` clause, after which the loop
continues exactly when `retry_on_failure` is set. -/
def execIter (server : Nat → TResult) (raiseForError : Bool)
    (recur : ClientCfg → Nat → List Nat → List AuthCall → ExecTrace)
    (cfg : ClientCfg) (sent : Nat) (delays : List Nat) (auths : List AuthCall) : ExecTrace :=
  match postWithRelogin server cfg sent with
  | InnerResult.unreachable cfg1 sent1 auths1 =>
    if cfg.retryOnFailure then
      recur cfg1 sent1 (delays ++ [cfg.retryDelay]) (auths ++ auths1)
    else ⟨ExecOutcome.notReachable, cfg1, sent1, delays, auths ++ auths1⟩
  | InnerResult.timeout cfg1 sent1 auths1 =>
    ⟨ExecOutcome.notResponsive, cfg1, sent1, delays, auths ++ auths1⟩
  | InnerResult.loginAuthFailure cfg1 sent1 auths1 =>
    ⟨ExecOutcome.authFailed [], cfg1, sent1, delays, auths ++ auths1⟩
  | InnerResult.loginHttpFailure cfg1 sent1 auths1 =>
    ⟨ExecOutcome.loginFailed, cfg1, sent1, delays, auths ++ auths1⟩
  | InnerResult.resp r cfg1 sent1 auths1 =>
    if raiseForError ∧ 400 ≤ r.status then
      if r.status = 401 ∨ r.status = 403 then
        ⟨ExecOutcome.authFailed (r.gqlErrors.getD []), cfg1, sent1, delays, auths ++ auths1⟩
      else if cfg.retryOnFailure then
        recur cfg1 sent1 delays (auths ++ auths1)
      else execAfterLoop r cfg1 sent1 delays (auths ++ auths1)
    else execAfterLoop r cfg1 sent1 delays (auths ++ auths1)

def execLoop (server : Nat → TResult) (raiseForError : Bool) :
    Nat → ClientCfg → Nat → List Nat → List AuthCall → ExecTrace
  | 0, cfg, sent, delays, auths => ⟨ExecOutcome.fuelOut, cfg, sent, delays, auths⟩
  | fuel + 1, cfg, sent, delays, auths =>
    execIter server raiseForError (execLoop server raiseForError fuel) cfg sent delays auths

/-- `execute_graphql` with `raise_for_error=True` (the default). -/
def executeGraphql (server : Nat → TResult) (cfg : ClientCfg) (fuel : Nat) : ExecTrace :=
  execLoop server true fuel cfg 0 [] []

/-- With an access token in hand, the initial `login()` of `_post` is a
no-op. -/
lemma loginModel_noop (cfg : ClientCfg) (h : cfg.hasAccessToken = true) :
    loginModel cfg false = LoginOutcome.ok cfg [] := by
  unfold loginModel
  by_cases hp : cfg.passwordAuth
  · simp [hp, h]
  · simp [hp]

/-- C3: for a password-authenticated client holding an access token, with
working auth endpoints: a 401 GraphQL response whose messages contain
\x22Expired Signature\x22 triggers exactly one re-login — refresh-token based
when a refresh token is held, else the full username/password exchange — and
exactly one replay of the original request; when the replay again returns
401, the caller gets an `AuthenticationError` carrying the replay's error
messages, with no further retry, sleep or re-login, whatever the
retry-on-failure configuration. -/
theorem relogin_once_then_auth_error
    (server : Nat → TResult) (cfg : ClientCfg) (r1 r2 : HResponse) (fuel : Nat)
    (hpw : cfg.passwordAuth = true)
    (hacc : cfg.hasAccessToken = true)
    (hrs : cfg.refreshStatus < 400) (hls : cfg.loginStatus < 400)
    (h1 : server 0 = TResult.ok r1) (h2 : server 1 = TResult.ok r2)
    (hs1 : r1.status = 401)
    (hexp : (r1.gqlErrors.getD []).contains "Expired Signature" = true)
    (hs2 : r2.status = 401) :
    (executeGraphql server cfg (fuel + 1)).outcome =
        ExecOutcome.authFailed (r2.gqlErrors.getD []) ∧
    (executeGraphql server cfg (fuel + 1)).sent = 2 ∧
    (executeGraphql server cfg (fuel + 1)).delays = [] ∧
    (executeGraphql server cfg (fuel + 1)).auths =
      (if cfg.hasRefreshToken then [AuthCall.refreshCall] else [AuthCall.fullLogin]) := by
  have hinner1 : innerPost server cfg 0 = InnerResult.resp r1 cfg 1 [] := by
    unfold innerPost
    rw [loginModel_noop cfg hacc, h1]
  have hexp2 : "Expired Signature" ∈ r1.gqlErrors.getD [] := by
    simpa using hexp
  by_cases hrt : cfg.hasRefreshToken = true
  · have hrelogin : loginModel cfg true = LoginOutcome.ok
        { cfg with hasAccessToken := true } [AuthCall.refreshCall] := by
      unfold loginModel
      simp [hpw, hrt, hrs]
    have hinner2 : innerPost server { cfg with hasAccessToken := true } 1 =
        InnerResult.resp r2 { cfg with hasAccessToken := true } 2 [] := by
      unfold innerPost
      rw [loginModel_noop _ (by simp), h2]
    have hpost : postWithRelogin server cfg 0 =
        InnerResult.resp r2 { cfg with hasAccessToken := true } 2 [AuthCall.refreshCall] := by
      simp [postWithRelogin, hinner1, hrelogin, hinner2, hs1, hexp2]
    have hrun : executeGraphql server cfg (fuel + 1) =
        ⟨ExecOutcome.authFailed (r2.gqlErrors.getD []),
          { cfg with hasAccessToken := true }, 2, [], [AuthCall.refreshCall]⟩ := by
      unfold executeGraphql
      simp [execLoop, execIter, hpost, hs2]
    rw [hrun]
    simp [hrt]
  · have hrelogin : loginModel cfg true = LoginOutcome.ok
        { cfg with hasAccessToken := true, hasRefreshToken := true } [AuthCall.fullLogin] := by
      unfold loginModel loginFullExchange
      simp [hpw, hrt, hls]
    have hinner2 : innerPost server { cfg with hasAccessToken := true, hasRefreshToken := true } 1 =
        InnerResult.resp r2 { cfg with hasAccessToken := true, hasRefreshToken := true } 2 [] := by
      unfold innerPost
      rw [loginModel_noop _ (by simp), h2]
    have hpost : postWithRelogin server cfg 0 =
        InnerResult.resp r2 { cfg with hasAccessToken := true, hasRefreshToken := true } 2
          [AuthCall.fullLogin] := by
      simp [postWithRelogin, hinner1, hrelogin, hinner2, hs1, hexp2]
    have hrun : executeGraphql server cfg (fuel + 1) =
        ⟨ExecOutcome.authFailed (r2.gqlErrors.getD []),
          { cfg with hasAccessToken := true, hasRefreshToken := true }, 2, [],
          [AuthCall.fullLogin]⟩ := by
      unfold executeGraphql
      simp [execLoop, execIter, hpost, hs2]
    rw [hrun]
    simp [hrt]

/-- Witness for `relogin_once_then_auth_error`: both GraphQL responses are
401 with an expired-signature message; the client holds a refresh token, so
the single re-login is the refresh exchange, the request is replayed once,
and the second 401 surfaces as an authentication failure. -/
theorem relogin_once_witness :
    (executeGraphql
        (fun i => if i = 0 then TResult.ok ⟨401, some ["Expired Signature"]⟩
                  else TResult.ok ⟨401, some ["Expired Signature"]⟩)
        ⟨true, true, true, 200, 200, true, 5⟩ 3).outcome =
      ExecOutcome.authFailed ["Expired Signature"] ∧
    (executeGraphql
        (fun i => if i = 0 then TResult.ok ⟨401, some ["Expired Signature"]⟩
                  else TResult.ok ⟨401, some ["Expired Signature"]⟩)
        ⟨true, true, true, 200, 200, true, 5⟩ 3).sent = 2 ∧
    (executeGraphql
        (fun i => if i = 0 then TResult.ok ⟨401, some ["Expired Signature"]⟩
                  else TResult.ok ⟨401, some ["Expired Signature"]⟩)
        ⟨true, true, true, 200, 200, true, 5⟩ 3).delays = [] ∧
    (executeGraphql
        (fun i => if i = 0 then TResult.ok ⟨401, some ["Expired Signature"]⟩
                  else TResult.ok ⟨401, some ["Expired Signature"]⟩)
        ⟨true, true, true, 200, 200, true, 5⟩ 3).auths = [AuthCall.refreshCall] :=
  relogin_once_then_auth_error
    (fun i => if i = 0 then TResult.ok ⟨401, some ["Expired Signature"]⟩
              else TResult.ok ⟨401, some ["Expired Signature"]⟩)
    ⟨true, true, true, 200, 200, true, 5⟩
    ⟨401, some ["Expired Signature"]⟩ ⟨401, some ["Expired Signature"]⟩ 2
    rfl rfl (by decide) (by decide) rfl rfl rfl (by decide) rfl

/-- One-step unfolding of the retry loop. -/
lemma execLoop_succ (server : Nat → TResult) (b : Bool) (fuel : Nat) (cfg : ClientCfg)
    (sent : Nat) (delays : List Nat) (auths : List AuthCall) :
    execLoop server b (fuel + 1) cfg sent delays auths =
      execIter server b (execLoop server b fuel) cfg sent delays auths := rfl

/-- A run of `k` consecutive unreachable transport results is absorbed by the
retry loop: each failed attempt sleeps `retry_delay` once (the same constant
every time — no backoff growth) and re-enters the loop with one unit of fuel
consumed. -/
lemma execLoop_skip_unreachable (server : Nat → TResult) (cfg : ClientCfg)
    (hacc : cfg.hasAccessToken = true) (hretry : cfg.retryOnFailure = true) :
    ∀ k sent delays auths f, (∀ i, i < k → server (sent + i) = TResult.unreachable) →
      execLoop server true (k + (f + 1)) cfg sent delays auths =
        execLoop server true (f + 1) cfg (sent + k)
          (delays ++ List.replicate k cfg.retryDelay) auths := by
  intro k
  induction k with
  | zero =>
    intro sent delays auths f _
    simp
  | succ k ih =>
    intro sent delays auths f h
    have h0 : server sent = TResult.unreachable := by
      have := h 0 (by omega)
      simpa using this
    have hstep : postWithRelogin server cfg sent =
        InnerResult.unreachable cfg (sent + 1) [] := by
      unfold postWithRelogin innerPost
      rw [loginModel_noop cfg hacc, h0]
    have hfuel : k + 1 + (f + 1) = (k + (f + 1)) + 1 := by omega
    rw [hfuel, execLoop_succ]
    simp only [execIter, hstep]
    rw [if_pos hretry]
    have hshift : ∀ i, i < k → server (sent + 1 + i) = TResult.unreachable := by
      intro i hi
      have := h (i + 1) (by omega)
      rwa [show sent + (i + 1) = sent + 1 + i by omega] at this
    rw [ih (sent + 1) (delays ++ [cfg.retryDelay]) (auths ++ []) f hshift]
    rw [List.append_nil, List.append_assoc]
    rw [show [cfg.retryDelay] ++ List.replicate k cfg.retryDelay =
      List.replicate (k + 1) cfg.retryDelay from rfl]
    rw [show sent + 1 + k = sent + (k + 1) by omega]

/-- C6: transport error handling of `execute_graphql` for a client holding an
access token, after `k` consecutive unreachable transport results: (a) with
`retry_on_failure` configured the request is retried after each failure —
sleeping the same configured `retry_delay` every time, with no cap and no
backoff growth — until a successful response, which is returned; (b) without
`retry_on_failure` the unreachable error propagates immediately after the
first send, with no sleep; (c) a read-timeout raises the distinct
not-responsive error immediately, which is never retried even with
`retry_on_failure` configured. -/
theorem transport_retry_semantics (server : Nat → TResult) (cfg : ClientCfg)
    (k fuel : Nat) (r : HResponse)
    (hacc : cfg.hasAccessToken = true)
    (hk : ∀ i, i < k → server i = TResult.unreachable)
    (hfuel : k < fuel) :
    (cfg.retryOnFailure = true → server k = TResult.ok r → r.status < 400 →
      r.gqlErrors = none →
      executeGraphql server cfg fuel =
        ⟨ExecOutcome.ok r, cfg, k + 1, List.replicate k cfg.retryDelay, []⟩) ∧
    (cfg.retryOnFailure = false → 0 < k →
      executeGraphql server cfg fuel =
        ⟨ExecOutcome.notReachable, cfg, 1, [], []⟩) ∧
    (cfg.retryOnFailure = true → server k = TResult.readTimeout →
      executeGraphql server cfg fuel =
        ⟨ExecOutcome.notResponsive, cfg, k + 1, List.replicate k cfg.retryDelay, []⟩) := by
  obtain ⟨f, rfl⟩ : ∃ f, fuel = k + (f + 1) := ⟨fuel - k - 1, by omega⟩
  refine ⟨?_, ?_, ?_⟩
  · intro hretry hok hstatus herrs
    have hskip := execLoop_skip_unreachable server cfg hacc hretry k 0 [] [] f
      (by intro i hi; simpa using hk i hi)
    unfold executeGraphql
    rw [hskip]
    have hinner : innerPost server cfg k = InnerResult.resp r cfg (k + 1) [] := by
      unfold innerPost
      rw [loginModel_noop cfg hacc, hok]
    have hne : ¬ (r.status = 401) := by omega
    have hpost : postWithRelogin server cfg (0 + k) =
        InnerResult.resp r cfg (0 + k + 1) [] := by
      rw [show (0 + k) = k by omega]
      simp [postWithRelogin, hinner, hne]
    rw [execLoop_succ]
    simp only [execIter, hpost]
    rw [if_neg (fun hcontra => absurd hcontra.2 (by omega))]
    simp [execAfterLoop, herrs]
  · intro hretry hkpos
    have h0 : server 0 = TResult.unreachable := hk 0 hkpos
    have hpost : postWithRelogin server cfg 0 =
        InnerResult.unreachable cfg 1 [] := by
      unfold postWithRelogin innerPost
      rw [loginModel_noop cfg hacc, h0]
    obtain ⟨g, hg⟩ : ∃ g, k + (f + 1) = g + 1 := ⟨k + f, by omega⟩
    unfold executeGraphql
    rw [hg, execLoop_succ]
    simp only [execIter, hpost]
    rw [if_neg (by simp [hretry])]
    simp
  · intro hretry htimeout
    have hskip := execLoop_skip_unreachable server cfg hacc hretry k 0 [] [] f
      (by intro i hi; simpa using hk i hi)
    unfold executeGraphql
    rw [hskip]
    have hpost : postWithRelogin server cfg (0 + k) =
        InnerResult.timeout cfg (0 + k + 1) [] := by
      unfold postWithRelogin innerPost
      rw [loginModel_noop cfg hacc]
      rw [show (0 + k) = k by omega, htimeout]
    rw [execLoop_succ]
    simp only [execIter, hpost]
    simp

/-- Witness for `transport_retry_semantics`: two unreachable attempts, each
slept through with the configured 5-second delay, then a clean 200 response
returned on the third send. -/
theorem transport_retry_witness :
    executeGraphql
        (fun i => if i < 2 then TResult.unreachable else TResult.ok ⟨200, none⟩)
        ⟨true, true, true, 200, 200, true, 5⟩ 4 =
      ⟨ExecOutcome.ok ⟨200, none⟩, ⟨true, true, true, 200, 200, true, 5⟩, 3, [5, 5], []⟩ :=
  (transport_retry_semantics
    (fun i => if i < 2 then TResult.unreachable else TResult.ok ⟨200, none⟩)
    ⟨true, true, true, 200, 200, true, 5⟩ 2 4 ⟨200, none⟩ rfl
    (by intro i hi; interval_cases i <;> rfl) (by omega)).1 rfl rfl (by decide) rfl

/-! ## Declarative object loader (`InfrahubObjectFileData.create_node`,
src/infrahub_sdk/spec/object.py lines 19-112)

Record values are modelled by a small JSON-like value type; schemas by plain
descriptor structures (the schema classes of `schema.py` expose only
attribute data here).  The network effect of `client.create` + `node.save`
is modelled as appending one create call to a trace and letting the server
assign the id `node-<n>` from a counter. -/

/-- A Python value inside an object-file record: string, int, bool, list, or
dict. -/
inductive JVal where
  | s (v : String)
  | i (v : Int)
  | b (v : Bool)
  | arr (xs : List JVal)
  | obj (fields : List (String × JVal))

/-- A record (Python dict with string keys, unique, in insertion order). -/
abbrev Record := List (String × JVal)

/-- A relationship descriptor of the schema: name, cardinality (the strings
`one` / `many`), declared peer kind, optional identifier. -/
structure RelSchema where
  name : String
  cardinality : String
  peer : String
  identifier : Option String

/-- The schema data `create_node` consults. -/
structure ObjSchema where
  kind : String
  attributeNames : List String
  relationships : List RelSchema
  mandatoryAttributeNames : List String
  mandatoryRelationshipNames : List String

/-- `schema.relationship_names`. -/
def ObjSchema.relationshipNames (s : ObjSchema) : List String :=
  s.relationships.map (fun r => r.name)

/-- `schema.get_relationship(name=...)`: first relationship with that name. -/
def ObjSchema.getRelationship (s : ObjSchema) (name : String) : Option RelSchema :=
  s.relationships.find? (fun r => r.name == name)

/-- Modelled from the spec: `get_relationship_by_identifier` lives in
`schema.py`, which is not among the sources under study; per section 4.4 of
the spec it finds, on the peer schema, the relationship whose identifier
matches the given identifier. -/
def ObjSchema.getRelationshipByIdentifier (s : ObjSchema) (ident : String) : Option RelSchema :=
  s.relationships.find? (fun r => r.identifier == some ident)

/-- The local validation errors `create_node` can raise (all `ValueError`s or
type errors in the source, none of them retried). -/
inductive CreateErr where
  | mandatoryMissing (name : String)
  | relNotDictWithData (name : String)
  | relFormat (name : String)
  | identifierMissing
  | schemaMissing (kind : String)
  | typeMismatch
  | fuelExhausted

/-- One remote create call: the kind and the payload handed to
`client.create` (modelled from the spec: `client.create`/`node.save` build
one upsert mutation per call; `node.py` is not among the sources under
study). -/
structure CreateCall where
  kind : String
  data : Record

/-- The trace state threaded through the loader: calls issued so far and the
counter from which the server-assigned ids are drawn. -/
structure CreateState where
  calls : List CreateCall
  nextId : Nat

/-- Server-assigned node id. -/
def nodeIdString (n : Nat) : String := "node-" ++ toString n

/-- Python `"data" in value` for a non-dict value: element membership for a
list (string equality only can match), substring for a string, `False`-like
for the remaining scalars (where CPython raises a `TypeError`, the caller of
this check fails immediately afterwards anyway). -/
def pyContainsData : JVal → Bool
  | JVal.arr xs => xs.any (fun x => match x with | JVal.s v => v == "data" | _ => false)
  | JVal.s sv => sv.containsSubstr "data"
  | _ => false

/-- The partition loop over `data.items()` (object.py lines 33-52): plain
attributes are copied, list-valued relationships are copied, bare-string
single-cardinality relationships are wrapped into one-element lists, dicts
without a `data` key raise, and everything else is deferred to
`remaining_rels`. -/
def buildClean (schema : ObjSchema) :
    Record → Record → List String → Except CreateErr (Record × List String)
  | [], clean, remaining => Except.ok (clean, remaining)
  | (key, value) :: rest, clean, remaining =>
    let clean1 := if schema.attributeNames.contains key then setKey clean key value else clean
    if schema.relationshipNames.contains key then
      match schema.getRelationship key with
      | none => Except.error CreateErr.typeMismatch
      | some relSchema =>
        match value with
        | JVal.obj fields =>
          if ¬ hasKey fields "data" then Except.error (CreateErr.relNotDictWithData key)
          else buildClean schema rest clean1 (remaining ++ [key])
        | JVal.arr xs => buildClean schema rest (setKey clean1 key (JVal.arr xs)) remaining
        | JVal.s sv =>
          if relSchema.cardinality == "one" then
            buildClean schema rest (setKey clean1 key (JVal.arr [JVal.s sv])) remaining
          else buildClean schema rest clean1 (remaining ++ [key])
        | _ => buildClean schema rest clean1 (remaining ++ [key])
    else buildClean schema rest clean1 remaining

/-- Outcome of a loader run: the error raised (if any) plus the updated call
trace; an error aborts everything after it, leaving the calls already made in
the trace. -/
abbrev CreateResult := Option CreateErr × CreateState

/-- The `for idx, peer_data in enumerate(rel_data)` loop for a
many-cardinality nested relationship (object.py lines 98-108): each element
is created with `context["list_index"] = idx` set. -/
def processChildren (recur : ObjSchema → Record → Record → CreateState → CreateResult)
    (peerSchema : ObjSchema) (ctx : Record) :
    List JVal → Nat → CreateState → CreateResult
  | [], _, st => (none, st)
  | x :: xs, idx, st =>
    match x with
    | JVal.obj dx =>
      match recur peerSchema dx (setKey ctx "list_index" (JVal.i (Int.ofNat idx))) st with
      | (some e, st1) => (some e, st1)
      | (none, st1) => processChildren recur peerSchema ctx xs (idx + 1) st1
    | _ => (some CreateErr.typeMismatch, st)

/-- Processing of one deferred relationship (object.py lines 69-112): resolve
the peer schema (explicit `kind` override, else `default_schema_kind`, else
the declared peer), require an identifier, compute the reverse-link
relationship on the peer schema and pre-populate the child context with it
pointing at the parent id, then dispatch on cardinality and payload shape. -/
def processOneRel (schemas : List ObjSchema) (defaultSchemaKind : Option String)
    (recur : ObjSchema → Record → Record → CreateState → CreateResult)
    (schema : ObjSchema) (data : Record) (nodeId : String)
    (rel : String) (st : CreateState) : CreateResult :=
  match lookupKey data rel with
  | none => (some CreateErr.typeMismatch, st)
  | some v =>
    match v with
    | JVal.obj fields =>
      match schema.getRelationship rel with
      | none => (some CreateErr.typeMismatch, st)
      | some relSchema =>
        let peerKindE : Except CreateErr String :=
          match lookupKey fields "kind" with
          | some (JVal.s kv) => Except.ok (if kv ≠ "" then kv else relSchema.peer)
          | some _ => Except.error CreateErr.typeMismatch
          | none =>
            match defaultSchemaKind with
            | some dk => Except.ok (if dk ≠ "" then dk else relSchema.peer)
            | none => Except.ok relSchema.peer
        match peerKindE with
        | Except.error e => (some e, st)
        | Except.ok peerKind =>
          match schemas.find? (fun sc => sc.kind == peerKind) with
          | none => (some (CreateErr.schemaMissing peerKind), st)
          | some peerSchema =>
            match relSchema.identifier with
            | none => (some CreateErr.identifierMissing, st)
            | some ident =>
              let peerRel := peerSchema.getRelationshipByIdentifier ident
              match lookupKey fields "data" with
              | none => (some CreateErr.typeMismatch, st)
              | some relData =>
                let ctx : Record :=
                  match peerRel with
                  | some pr => [(pr.name, JVal.s nodeId)]
                  | none => []
                if relSchema.cardinality == "one" then
                  match relData with
                  | JVal.obj d => recur peerSchema d ctx st
                  | _ => (some (CreateErr.relFormat rel), st)
                else if relSchema.cardinality == "many" then
                  match relData with
                  | JVal.arr xs => processChildren recur peerSchema ctx xs 0 st
                  | _ => (some (CreateErr.relFormat rel), st)
                else (some (CreateErr.relFormat rel), st)
    | other =>
      if pyContainsData other then (some (CreateErr.relNotDictWithData rel), st)
      else (some CreateErr.typeMismatch, st)

/-- The `for rel in remaining_rels` loop (object.py lines 69-112). -/
def processRemainingRels (schemas : List ObjSchema) (defaultSchemaKind : Option String)
    (recur : ObjSchema → Record → Record → CreateState → CreateResult)
    (schema : ObjSchema) (data : Record) (nodeId : String) :
    List String → CreateState → CreateResult
  | [], st => (none, st)
  | rel :: rest, st =>
    match processOneRel schemas defaultSchemaKind recur schema data nodeId rel st with
    | (some e, st1) => (some e, st1)
    | (none, st1) => processRemainingRels schemas defaultSchemaKind recur schema data nodeId rest st1

/-- One level of `create_node` (object.py lines 19-112): validate mandatory
fields, partition the record, merge the schema-filtered context, apply the
`enrich_node` hook, issue the create call, then recurse (through `recur`)
into every deferred relationship. -/
def createStep (schemas : List ObjSchema) (enrich : Record → Record → Record)
    (defaultSchemaKind : Option String)
    (recur : ObjSchema → Record → Record → CreateState → CreateResult)
    (schema : ObjSchema) (data : Record) (context : Record) (st : CreateState) : CreateResult :=
  match (schema.mandatoryAttributeNames ++ schema.mandatoryRelationshipNames).find?
      (fun e => ! hasKey data e) with
  | some e => (some (CreateErr.mandatoryMissing e), st)
  | none =>
    match buildClean schema data [] [] with
    | Except.error err => (some err, st)
    | Except.ok (clean0, remainingRels) =>
      let clean1 :=
        if context.isEmpty then clean0
        else
          dictUpdate clean0 (context.filter (fun p =>
            (schema.relationshipNames ++ schema.attributeNames).contains p.1))
      let clean2 := enrich clean1 context
      let nodeId := nodeIdString st.nextId
      let st1 : CreateState := ⟨st.calls ++ [⟨schema.kind, clean2⟩], st.nextId + 1⟩
      processRemainingRels schemas defaultSchemaKind recur schema data nodeId remainingRels st1

/-- `InfrahubObjectFileData.create_node`, with fuel bounding the recursion
depth (the Python recursion is bounded by the nesting of the file). -/
def createNode (schemas : List ObjSchema) (enrich : Record → Record → Record)
    (defaultSchemaKind : Option String) :
    Nat → ObjSchema → Record → Record → CreateState → CreateResult
  | 0 => fun _ _ _ st => (some CreateErr.fuelExhausted, st)
  | fuel + 1 => createStep schemas enrich defaultSchemaKind
      (createNode schemas enrich defaultSchemaKind fuel)

/-- `InfrahubObjectFileData.enrich_node` is the identity hook. -/
def objectEnrich : Record → Record → Record := fun data _ => data

/-- Demo schema for the nested-relationship scenario: a parent kind with a
mandatory attribute `name` and a mandatory many-cardinality relationship
`children` (identifier `parent__child`) towards `TestChild`. -/
def demoParentSchema : ObjSchema :=
  ⟨"TestParent", ["name"], [⟨"children", "many", "TestChild", some "parent__child"⟩],
   ["name"], ["children"]⟩

/-- Demo peer schema: the child kind carries the reverse relationship
`parent` with the same identifier `parent__child`. -/
def demoChildSchema : ObjSchema :=
  ⟨"TestChild", ["name"], [⟨"parent", "one", "TestParent", some "parent__child"⟩],
   ["name"], []⟩

/-- Demo record: one parent with three children supplied inline. -/
def demoRecord : Record :=
  [("name", JVal.s "p1"),
   ("children", JVal.obj [("data", JVal.arr
     [JVal.obj [("name", JVal.s "c1")],
      JVal.obj [("name", JVal.s "c2")],
      JVal.obj [("name", JVal.s "c3")]])])]

/-- C2: (i) for every schema and record, if any mandatory attribute or
relationship name is absent from the record keys, `create_node` raises the
validation error and the call trace is left untouched — zero create calls;
(ii) for the demo record with one nested many-cardinality relationship of 3
inline items, exactly 4 create calls occur — the parent first, then the three
children in order — and each child payload carries the reverse-link field
`parent` (the peer relationship matching identifier `parent__child`) set to
the parent id `node-0`. -/
theorem create_node_validation_and_nested (schemas : List ObjSchema)
    (enrich : Record → Record → Record) (defaultSchemaKind : Option String)
    (fuel : Nat) (schema : ObjSchema) (data context : Record) (st : CreateState)
    (e : String)
    (he : e ∈ schema.mandatoryAttributeNames ++ schema.mandatoryRelationshipNames)
    (hmiss : hasKey data e = false) :
    ((createNode schemas enrich defaultSchemaKind (fuel + 1) schema data context st).2 = st ∧
      ∃ m, (createNode schemas enrich defaultSchemaKind (fuel + 1) schema data context st).1 =
        some (CreateErr.mandatoryMissing m)) ∧
    createNode [demoParentSchema, demoChildSchema] objectEnrich none 5 demoParentSchema
        demoRecord [] ⟨[], 0⟩ =
      (none,
        ⟨[⟨"TestParent", [("name", JVal.s "p1")]⟩,
          ⟨"TestChild", [("name", JVal.s "c1"), ("parent", JVal.s "node-0")]⟩,
          ⟨"TestChild", [("name", JVal.s "c2"), ("parent", JVal.s "node-0")]⟩,
          ⟨"TestChild", [("name", JVal.s "c3"), ("parent", JVal.s "node-0")]⟩], 4⟩) := by
  have hsome : ((schema.mandatoryAttributeNames ++ schema.mandatoryRelationshipNames).find?
      (fun x => ! hasKey data x)).isSome := by
    rw [List.find?_isSome]
    exact ⟨e, he, by simp [hmiss]⟩
  obtain ⟨m, hm⟩ := Option.isSome_iff_exists.mp hsome
  refine ⟨⟨?_, ⟨m, ?_⟩⟩, rfl⟩
  · show (createStep schemas enrich defaultSchemaKind
      (createNode schemas enrich defaultSchemaKind fuel) schema data context st).2 = st
    unfold createStep
    rw [hm]
  · show (createStep schemas enrich defaultSchemaKind
      (createNode schemas enrich defaultSchemaKind fuel) schema data context st).1 =
      some (CreateErr.mandatoryMissing m)
    unfold createStep
    rw [hm]

/-- Witness for `create_node_validation_and_nested`: a record lacking the
mandatory `name` attribute produces a validation error and an unchanged call
trace. -/
theorem create_node_validation_witness :
    (((createNode [demoParentSchema, demoChildSchema] objectEnrich none 3 demoParentSchema
        [("children", JVal.s "x")] [] ⟨[], 7⟩).2 = (⟨[], 7⟩ : CreateState) ∧
      ∃ m, (createNode [demoParentSchema, demoChildSchema] objectEnrich none 3 demoParentSchema
        [("children", JVal.s "x")] [] ⟨[], 7⟩).1 =
          some (CreateErr.mandatoryMissing m)) ∧
    createNode [demoParentSchema, demoChildSchema] objectEnrich none 5 demoParentSchema
        demoRecord [] ⟨[], 0⟩ =
      (none,
        ⟨[⟨"TestParent", [("name", JVal.s "p1")]⟩,
          ⟨"TestChild", [("name", JVal.s "c1"), ("parent", JVal.s "node-0")]⟩,
          ⟨"TestChild", [("name", JVal.s "c2"), ("parent", JVal.s "node-0")]⟩,
          ⟨"TestChild", [("name", JVal.s "c3"), ("parent", JVal.s "node-0")]⟩], 4⟩)) :=
  create_node_validation_and_nested [demoParentSchema, demoChildSchema] objectEnrich none 2
    demoParentSchema [("children", JVal.s "x")] [] ⟨[], 7⟩ "name"
    (by simp [demoParentSchema]) rfl

/-! ## Diff summary translation (`diff_tree_node_to_node_diff`,
src/infrahub_sdk/diff.py lines 77-128)

The GraphQL `DiffTree` node dictionaries are modelled with one optional field
per key the code reads via `.get`; an absent key is `none`.  Python `str(x)`
renders a missing value as the string `None`; `int(x or 0)` renders it as
`0`. -/

/-- Python `str` over an optional string. -/
def pyStr (v : Option String) : String := v.getD "None"

/-- Python `str.upper()` for the ASCII strings the diff schema uses
(`one` / `many` and their case variants). -/
def pyUpper (s : String) : String := String.mk (s.toList.map Char.toUpper)

/-- One entry of a relationship's `elements` sub-list. -/
structure DiffElemDict where
  status : Option String
  numAdded : Option Int
  numUpdated : Option Int
  numRemoved : Option Int

/-- One entry of a node's `attributes` list. -/
structure DiffAttrDict where
  name : Option String
  status : Option String
  numAdded : Option Int
  numUpdated : Option Int
  numRemoved : Option Int

/-- One entry of a node's `relationships` list; `elements = none` means the
key is absent from the dictionary. -/
structure DiffRelDict where
  name : Option String
  status : Option String
  cardinality : Option String
  numAdded : Option Int
  numUpdated : Option Int
  numRemoved : Option Int
  elements : Option (List DiffElemDict)

/-- A `DiffTree` node dictionary, restricted to the keys the translation
reads. -/
structure DiffNodeDict where
  uuid : Option String
  kind : Option String
  label : Option String
  action : Option String
  attributes : Option (List DiffAttrDict)
  relationships : Option (List DiffRelDict)

/-- The `summary` of a `NodeDiffElement`/`NodeDiffPeer`. -/
structure NodeDiffSummary where
  added : Int
  updated : Int
  removed : Int
  deriving DecidableEq, Repr

/-- `NodeDiffPeer` of diff.py. -/
structure NodeDiffPeer where
  action : String
  summary : NodeDiffSummary
  deriving DecidableEq, Repr

/-- `NodeDiffElement` of diff.py; `peers = none` models the `NotRequired`
key being absent. -/
structure NodeDiffElement where
  name : String
  elementType : String
  action : String
  summary : NodeDiffSummary
  peers : Option (List NodeDiffPeer)
  deriving DecidableEq, Repr

/-- `NodeDiff` of diff.py. -/
structure NodeDiff where
  branch : String
  kind : String
  id : String
  action : String
  displayLabel : String
  elements : List NodeDiffElement
  deriving DecidableEq, Repr

/-- Translation of one attribute dictionary (diff.py lines 80-91). -/
def attrToElement (a : DiffAttrDict) : NodeDiffElement :=
  ⟨pyStr a.name, "ATTRIBUTE", pyStr a.status,
   ⟨a.numAdded.getD 0, a.numUpdated.getD 0, a.numRemoved.getD 0⟩, none⟩

/-- Translation of one `elements` entry into a peer diff (diff.py lines
107-117). -/
def elementToPeer (e : DiffElemDict) : NodeDiffPeer :=
  ⟨pyStr e.status, ⟨e.numAdded.getD 0, e.numUpdated.getD 0, e.numRemoved.getD 0⟩⟩

/-- Translation of one relationship dictionary (diff.py lines 93-119):
cardinality ONE (after `str(...).upper()`) yields `RELATIONSHIP_ONE` and the
`peers` key is never set; otherwise the element type is `RELATIONSHIP_MANY`
and `peers` is set — from the `elements` sub-list, one peer per entry — only
when the dictionary has an `elements` key. -/
def relationshipToElement (r : DiffRelDict) : NodeDiffElement :=
  let isCardinalityOne := pyUpper (pyStr r.cardinality) == "ONE"
  let base : NodeDiffElement :=
    ⟨pyStr r.name, if isCardinalityOne then "RELATIONSHIP_ONE" else "RELATIONSHIP_MANY",
     pyStr r.status, ⟨r.numAdded.getD 0, r.numUpdated.getD 0, r.numRemoved.getD 0⟩, none⟩
  if ¬ isCardinalityOne then
    match r.elements with
    | some es => { base with peers := some (es.map elementToPeer) }
    | none => base
  else base

/-- `diff_tree_node_to_node_diff` (diff.py lines 77-128). -/
def diffTreeNodeToNodeDiff (n : DiffNodeDict) (branchName : String) : NodeDiff :=
  let attrElems :=
    match n.attributes with
    | some l => l.map attrToElement
    | none => []
  let relElems :=
    match n.relationships with
    | some l => l.map relationshipToElement
    | none => []
  ⟨branchName, pyStr n.kind, pyStr n.uuid, pyStr n.action, pyStr n.label,
   attrElems ++ relElems⟩

/-- C7 counterexample: a node dictionary whose single relationship has
cardinality MANY but no `elements` key translates to a
`RELATIONSHIP_MANY` element with no `peers` key at all — refuting the claim
that every `RELATIONSHIP_MANY` element always carries a `peers` list. -/
theorem diff_many_without_elements_has_no_peers :
    (diffTreeNodeToNodeDiff
        ⟨some "u1", some "TestKind", some "lbl", some "updated", none,
         some [⟨some "rel1", some "updated", some "MANY", some 0, some 1, some 0, none⟩]⟩
        "main").elements =
      [⟨"rel1", "RELATIONSHIP_MANY", "updated", ⟨0, 1, 0⟩, none⟩] ∧
    (some [] : Option (List NodeDiffPeer)) ≠ none := by
  exact ⟨rfl, by simp⟩

/-- C7 (amended): for every node dictionary with a `relationships` list, the
translated elements are the attribute elements followed by exactly one
element per relationship dictionary (in order); a relationship whose
cardinality reads ONE yields element type `RELATIONSHIP_ONE` and never a
`peers` key; a relationship whose cardinality does not read ONE yields
element type `RELATIONSHIP_MANY`, and whenever its dictionary carries an
`elements` sub-list the element carries a `peers` list mirroring that
sub-list one-for-one (the i-th peer translated from the i-th entry); without
an `elements` key no `peers` key is set. -/
theorem diff_relationship_translation (b : String) (n : DiffNodeDict)
    (rs : List DiffRelDict) (hrs : n.relationships = some rs) :
    ((diffTreeNodeToNodeDiff n b).elements =
      (match n.attributes with
       | some l => l.map attrToElement
       | none => []) ++ rs.map relationshipToElement) ∧
    (∀ r ∈ rs,
      (pyUpper (pyStr r.cardinality) = "ONE" →
        (relationshipToElement r).elementType = "RELATIONSHIP_ONE" ∧
        (relationshipToElement r).peers = none) ∧
      (pyUpper (pyStr r.cardinality) ≠ "ONE" →
        (relationshipToElement r).elementType = "RELATIONSHIP_MANY" ∧
        ∀ es, r.elements = some es →
          (relationshipToElement r).peers = some (es.map elementToPeer)) ∧
      (pyUpper (pyStr r.cardinality) ≠ "ONE" → r.elements = none →
        (relationshipToElement r).peers = none)) := by
  refine ⟨by simp [diffTreeNodeToNodeDiff, hrs], ?_⟩
  intro r _
  refine ⟨?_, ?_, ?_⟩
  · intro hone
    simp [relationshipToElement, hone]
  · intro hnotone
    constructor
    · rcases hel : r.elements with _ | es <;> simp [relationshipToElement, hnotone, hel]
    · intro es hes
      simp [relationshipToElement, hnotone, hes]
  · intro hnotone helems
    simp [relationshipToElement, hnotone, helems]

/-- Witness for `diff_relationship_translation`: one ONE-cardinality
relationship with summary counts 0/1/0 produces exactly one element of type
`RELATIONSHIP_ONE` with no peers key. -/
theorem diff_relationship_translation_witness :
    (diffTreeNodeToNodeDiff
        ⟨some "u1", some "TestKind", some "lbl", some "updated", none,
         some [⟨some "primary", some "updated", some "ONE", some 0, some 1, some 0, none⟩]⟩
        "main").elements =
      [] ++ [⟨"primary", "RELATIONSHIP_ONE", "updated", ⟨0, 1, 0⟩, none⟩] ∧
    ((relationshipToElement
        ⟨some "primary", some "updated", some "ONE", some 0, some 1, some 0, none⟩).elementType =
      "RELATIONSHIP_ONE" ∧
     (relationshipToElement
        ⟨some "primary", some "updated", some "ONE", some 0, some 1, some 0, none⟩).peers = none) :=
  let r : DiffRelDict := ⟨some "primary", some "updated", some "ONE", some 0, some 1, some 0, none⟩
  let n : DiffNodeDict :=
    ⟨some "u1", some "TestKind", some "lbl", some "updated", none, some [r]⟩
  have h := diff_relationship_translation "main" n [r] rfl
  ⟨h.1, (h.2 r (by simp)).1 rfl⟩

/-! ## Menu enrichment hook (`InfrahubMenuFileData.enrich_node`,
src/infrahub_sdk/spec/menu.py lines 10-18)

The hook receives the cleaned data record and the loader context; it inserts
`path` (derived from `kind`) and `order_weight` (derived from the positional
`list_index`) only when those keys are absent.  Type errors CPython would
raise (`"/objects/" + non_string`, `non_number + 1`) are explicit error
values; Python booleans participate in arithmetic as 0/1. -/

/-- The type errors `enrich_node` can hit. -/
inductive MenuErr where
  | typeMismatch
  deriving DecidableEq, Repr

/-- First block of `enrich_node` (menu.py lines 12-13): insert
`path = "/objects/" + data["kind"]` when `kind` is present and `path` is
not. -/
def menuPathStep (data : Record) : Except MenuErr Record :=
  if hasKey data "kind" ∧ ¬ hasKey data "path" then
    match lookupKey data "kind" with
    | some (JVal.s k) => Except.ok (setKey data "path" (JVal.s ("/objects/" ++ k)))
    | _ => Except.error MenuErr.typeMismatch
  else Except.ok data

/-- Second block of `enrich_node` (menu.py lines 15-16): insert
`order_weight = (context["list_index"] + 1) * 1000` when `list_index` is in
the context and `order_weight` is not yet in the data. -/
def menuWeightStep (context d : Record) : Except MenuErr Record :=
  if hasKey context "list_index" ∧ ¬ hasKey d "order_weight" then
    match lookupKey context "list_index" with
    | some (JVal.i idx) =>
      Except.ok (setKey d "order_weight" (JVal.i ((idx + 1) * 1000)))
    | some (JVal.b bv) =>
      Except.ok (setKey d "order_weight" (JVal.i (((if bv then 1 else 0) + 1) * 1000)))
    | _ => Except.error MenuErr.typeMismatch
  else Except.ok d

/-- `InfrahubMenuFileData.enrich_node`: the two insertion blocks in
sequence. -/
def menuEnrichNode (data context : Record) : Except MenuErr Record :=
  match menuPathStep data with
  | Except.error e => Except.error e
  | Except.ok d1 => menuWeightStep context d1

lemma lookupKey_append {β : Type} (d e : List (String × β)) (k : String) :
    lookupKey (d ++ e) k = (lookupKey d k).or (lookupKey e k) := by
  unfold lookupKey
  rw [List.find?_append]
  cases h : d.find? (fun p => p.1 == k) <;> simp [Option.or]

lemma hasKey_append {β : Type} (d e : List (String × β)) (k : String) :
    hasKey (d ++ e) k = (hasKey d k || hasKey e k) := by
  unfold hasKey
  rw [lookupKey_append]
  cases h : lookupKey d k <;> simp [Option.or]

lemma hasKey_singleton {β : Type} (k k' : String) (v : β) :
    hasKey [(k, v)] k' = (k == k') := by
  simp only [hasKey, lookupKey, List.find?]
  cases h : (k == k') <;> simp [h]

lemma setKey_of_not_hasKey {β : Type} (d : List (String × β)) (k : String) (v : β)
    (h : hasKey d k = false) : setKey d k v = d ++ [(k, v)] := by
  unfold setKey
  rw [if_neg (by simp [h])]

lemma lookupKey_append_left {β : Type} (d e : List (String × β)) (k : String)
    (h : hasKey d k = true) : lookupKey (d ++ e) k = lookupKey d k := by
  rw [lookupKey_append]
  unfold hasKey at h
  cases hl : lookupKey d k
  · rw [hl] at h
    simp at h
  · simp [Option.or]

/-- Appending one entry strictly lengthens a record, so the path/weight
insertion can never return the record unchanged. -/
lemma append_single_ne {β : Type} (d : List (String × β)) (p : String × β) :
    d ++ [p] ≠ d := by
  intro h
  have := congrArg List.length h
  simp at this

/-- Successful runs of the path block either leave the record unchanged or
append a single derived `path` entry. -/
lemma menuPathStep_shape (data d2 : Record) (h : menuPathStep data = Except.ok d2) :
    d2 = data ∨ ∃ k, d2 = data ++ [("path", JVal.s ("/objects/" ++ k))] ∧
      hasKey data "path" = false ∧ hasKey data "kind" = true := by
  unfold menuPathStep at h
  by_cases c1 : (hasKey data "kind" = true ∧ ¬ hasKey data "path" = true)
  · rw [if_pos c1] at h
    rcases hk : lookupKey data "kind" with _ | v
    · rw [hk] at h
      simp at h
    · rw [hk] at h
      cases v with
      | s k =>
        have hpath : hasKey data "path" = false := by simpa using c1.2
        simp at h
        right
        refine ⟨k, ?_, hpath, c1.1⟩
        rw [setKey_of_not_hasKey data "path" _ hpath] at h
        exact h.symm
      | i v => simp at h
      | b v => simp at h
      | arr xs => simp at h
      | obj fs => simp at h
  · rw [if_neg c1] at h
    injection h with h2
    exact Or.inl h2.symm

/-- A record the path block leaves unchanged fails the insertion condition. -/
lemma menuPathStep_fix_cond (d : Record) (h : menuPathStep d = Except.ok d) :
    ¬ (hasKey d "kind" = true ∧ ¬ hasKey d "path" = true) := by
  intro c1
  unfold menuPathStep at h
  rw [if_pos c1] at h
  rcases hk : lookupKey d "kind" with _ | v
  · rw [hk] at h
    simp at h
  · rw [hk] at h
    cases v with
    | s k =>
      have hpath : hasKey d "path" = false := by simpa using c1.2
      simp at h
      rw [setKey_of_not_hasKey d "path" _ hpath] at h
      exact append_single_ne d _ h
    | i v => simp at h
    | b v => simp at h
    | arr xs => simp at h
    | obj fs => simp at h

/-- The path block is idempotent on its own output. -/
lemma menuPathStep_stable (data d2 : Record) (h : menuPathStep data = Except.ok d2) :
    menuPathStep d2 = Except.ok d2 := by
  rcases menuPathStep_shape data d2 h with rfl | ⟨k, rfl, hpath, hkind⟩
  · exact h
  · unfold menuPathStep
    rw [if_neg ?_]
    intro hcond
    apply hcond.2
    rw [hasKey_append, hasKey_singleton]
    simp

/-- Stability of the path block survives appending an entry that is neither
`kind` nor `path` (such as the `order_weight` entry of the second block). -/
lemma menuPathStep_append_stable (d : Record) (p : String × JVal)
    (h : menuPathStep d = Except.ok d)
    (hk : (p.1 == "kind") = false) (_hp : (p.1 == "path") = false) :
    menuPathStep (d ++ [p]) = Except.ok (d ++ [p]) := by
  have hc := menuPathStep_fix_cond d h
  unfold menuPathStep
  rw [if_neg ?_]
  intro hcond
  apply hc
  constructor
  · have h1 := hcond.1
    rw [hasKey_append, hasKey_singleton, hk] at h1
    simpa using h1
  · intro hdpath
    apply hcond.2
    rw [hasKey_append, hasKey_singleton]
    simp [hdpath]

/-- Successful runs of the weight block either leave the record unchanged or
append a single `order_weight` entry. -/
lemma menuWeightStep_shape (context d d1 : Record)
    (h : menuWeightStep context d = Except.ok d1) :
    d1 = d ∨ ∃ w, d1 = d ++ [("order_weight", JVal.i w)] ∧
      hasKey d "order_weight" = false := by
  unfold menuWeightStep at h
  by_cases c2 : (hasKey context "list_index" = true ∧ ¬ hasKey d "order_weight" = true)
  · rw [if_pos c2] at h
    have how : hasKey d "order_weight" = false := by simpa using c2.2
    rcases hl : lookupKey context "list_index" with _ | v
    · rw [hl] at h
      simp at h
    · rw [hl] at h
      cases v with
      | i idx =>
        simp at h
        right
        refine ⟨(idx + 1) * 1000, ?_, how⟩
        rw [setKey_of_not_hasKey d "order_weight" _ how] at h
        exact h.symm
      | b bv =>
        simp at h
        right
        refine ⟨((if bv = true then 1 else 0) + 1) * 1000, ?_, how⟩
        rw [setKey_of_not_hasKey d "order_weight" _ how] at h
        exact h.symm
      | s v => simp at h
      | arr xs => simp at h
      | obj fs => simp at h
  · rw [if_neg c2] at h
    injection h with h2
    exact Or.inl h2.symm

/-- The weight block is idempotent on its own output. -/
lemma menuWeightStep_stable (context d d1 : Record)
    (h : menuWeightStep context d = Except.ok d1) :
    menuWeightStep context d1 = Except.ok d1 := by
  rcases menuWeightStep_shape context d d1 h with rfl | ⟨w, rfl, how⟩
  · exact h
  · unfold menuWeightStep
    rw [if_neg ?_]
    intro hcond
    apply hcond.2
    rw [hasKey_append, hasKey_singleton]
    simp

/-- C10: `InfrahubMenuFileData.enrich_node` is idempotent: a successful
enrichment of `data` under `context` is a fixed point of another enrichment
under the same context — `path` is inserted only when absent (derived as
`/objects/` + kind) and `order_weight` only when absent (computed as
`(list_index + 1) * 1000`) — and every key already present in `data` keeps
its caller-supplied value in the result. -/
theorem menu_enrich_idempotent (data context d1 : Record)
    (h : menuEnrichNode data context = Except.ok d1) :
    menuEnrichNode d1 context = Except.ok d1 ∧
    (∀ k, hasKey data k = true → lookupKey d1 k = lookupKey data k) := by
  unfold menuEnrichNode at h
  rcases hps : menuPathStep data with e | d2
  · rw [hps] at h
    simp at h
  · rw [hps] at h
    have hps2 : menuPathStep d2 = Except.ok d2 := menuPathStep_stable data d2 hps
    have hws1 : menuWeightStep context d1 = Except.ok d1 :=
      menuWeightStep_stable context d2 d1 h
    have hpd1 : menuPathStep d1 = Except.ok d1 := by
      rcases menuWeightStep_shape context d2 d1 h with rfl | ⟨w, rfl, how⟩
      · exact hps2
      · exact menuPathStep_append_stable d2 ("order_weight", JVal.i w) hps2 rfl rfl
    constructor
    · unfold menuEnrichNode
      rw [hpd1]
      exact hws1
    · intro k hk
      rcases menuPathStep_shape data d2 hps with heq | ⟨kk, heq, hpath, hkind⟩
      · rw [heq] at h
        rcases menuWeightStep_shape context data d1 h with heq2 | ⟨w, heq2, how⟩
        · rw [heq2]
        · rw [heq2]
          exact lookupKey_append_left data _ k hk
      · rw [heq] at h
        rcases menuWeightStep_shape context _ d1 h with heq2 | ⟨w, heq2, how⟩
        · rw [heq2]
          exact lookupKey_append_left data _ k hk
        · rw [heq2, List.append_assoc]
          exact lookupKey_append_left data _ k hk

/-- Witness for `menu_enrich_idempotent`: a record with only `kind` and a
context with `list_index = 2` is enriched with `path = /objects/TestKind`
and `order_weight = 3000`; the enriched record is a fixed point and `kind`
keeps its value. -/
theorem menu_enrich_idempotent_witness :
    menuEnrichNode
        [("kind", JVal.s "TestKind"), ("path", JVal.s "/objects/TestKind"),
         ("order_weight", JVal.i 3000)]
        [("list_index", JVal.i 2)] =
      Except.ok
        [("kind", JVal.s "TestKind"), ("path", JVal.s "/objects/TestKind"),
         ("order_weight", JVal.i 3000)] ∧
    lookupKey
        [("kind", JVal.s "TestKind"), ("path", JVal.s "/objects/TestKind"),
         ("order_weight", JVal.i 3000)] "kind" =
      lookupKey [("kind", JVal.s "TestKind")] "kind" :=
  have h := menu_enrich_idempotent [("kind", JVal.s "TestKind")]
    [("list_index", JVal.i 2)]
    [("kind", JVal.s "TestKind"), ("path", JVal.s "/objects/TestKind"),
     ("order_weight", JVal.i 3000)] rfl
  ⟨h.1, h.2 "kind" rfl⟩

end InfrahubSpec
